import Mathlib

/-!
# Feature Flag Resolution & Conditional Mounting Engine — verification

Shallow embedding of the feature-flag core of the repository:

* `FeatureFlagService` (server-side resolver, `api/featureFlags.js`):
  `loadConfiguration`, `isEnabled`, `getFeatureInfo`, `getEnabledFeatures`,
  `getConfig`, `reload`, `getFeatureRouter`.
* `FeatureFlagManager` (client mirror, `js/featureFlags.js`):
  `init`, `isEnabled`, `getEnabledFeatures`, `getFeatureInfo`,
  `applyFeatureFlags`.
* The server mount pass and default 404 handler (`server.js`, as shown in
  TRUNK_BASED_DEMO.md), over an express-like router model in which
  `app.use(p, r)` matches every path whose leading segments are `p` and
  `app.get(p, h)` matches `p` exactly; the first registered match wins and
  an unmatched request falls through to the final 404 handler.

JavaScript dynamic values are modelled by `JsValue` with JS truthiness and
property access; property access on a primitive yields `undefined` here
(prototype properties such as `"ab".length` are not modelled — no embedded
code path depends on them, since every access is either guarded by a
truthiness check or applied to parsed-manifest records).
-/

namespace FeatureFlags

/-- A JavaScript value as it can occur in a parsed YAML/JSON manifest. -/
inductive JsValue where
  | undefined : JsValue
  | null : JsValue
  | bool : Bool → JsValue
  | num : Int → JsValue
  | str : String → JsValue
  | obj : List (String × JsValue) → JsValue

/-- JS truthiness: `undefined`, `null`, `false`, `0`, `""` are falsy;
every object (including `{}` and `[]`) is truthy. -/
def truthy : JsValue → Bool
  | .undefined => false
  | .null => false
  | .bool b => b
  | .num n => n != 0
  | .str s => s != ""
  | .obj _ => true

/-- First-match association-list lookup; JS objects have unique keys, so
first-match agrees with JS property lookup on any parsed manifest. -/
def lookupField (fields : List (String × JsValue)) (name : String) : JsValue :=
  match fields.find? (fun p => p.1 == name) with
  | some p => p.2
  | none => .undefined

/-- JS property access `v[name]`: defined fields of an object, `undefined`
otherwise. -/
def getField (v : JsValue) (name : String) : JsValue :=
  match v with
  | .obj fields => lookupField fields name
  | _ => .undefined

/-- JS strict equality against `true`: `x === true`. -/
def jsStrictEqTrue : JsValue → Bool
  | .bool true => true
  | _ => false

/-- JS `a || b`. -/
def jsOr (a b : JsValue) : JsValue :=
  if truthy a then a else b

/-- `Object.keys` of a parsed object. -/
def jsKeys (fields : List (String × JsValue)) : List String :=
  fields.map Prod.fst

/-! ## Server-side resolver: `FeatureFlagService` -/

/-- The result of attempting to read and parse the YAML source:
`.error` when `fs.readFileSync`/`yaml.load` throws (file missing,
unreadable, parse error), `.ok v` with the parsed document otherwise. -/
abbrev ParseResult := Except String JsValue

/-- Resolver state: the environment tag and the `this.config` value. -/
structure FeatureFlagService where
  environment : String
  config : JsValue

/-- `loadConfiguration()`: on a successful parse `this.config` becomes the
parsed document; when the read or parse throws, the catch block sets
`this.config = { features: {} }` (fail-safe empty). -/
def loadConfiguration (parseResult : ParseResult) : JsValue :=
  match parseResult with
  | .ok v => v
  | .error _ => .obj [("features", .obj [])]

/-- Constructing the service loads the configuration at once. -/
def mkService (environment : String) (parseResult : ParseResult) :
    FeatureFlagService :=
  { environment := environment, config := loadConfiguration parseResult }

/-- `isEnabled(featureName)`: false when the config or its `features` field
is falsy, false when the record is falsy, otherwise `enabled === true`. -/
def FeatureFlagService.isEnabled (svc : FeatureFlagService)
    (featureName : String) : Bool :=
  if !truthy svc.config || !truthy (getField svc.config "features") then
    false
  else
    let feature := getField (getField svc.config "features") featureName
    if !truthy feature then false
    else jsStrictEqTrue (getField feature "enabled")

/-- `getFeatureInfo(featureName)`: `this.config.features[featureName] || null`
behind the same null-config guard. -/
def FeatureFlagService.getFeatureInfo (svc : FeatureFlagService)
    (featureName : String) : JsValue :=
  if !truthy svc.config || !truthy (getField svc.config "features") then
    .null
  else jsOr (getField (getField svc.config "features") featureName) .null

/-- `getEnabledFeatures()`:
`Object.keys(features).filter(key => features[key].enabled === true)`. -/
def FeatureFlagService.getEnabledFeatures (svc : FeatureFlagService) :
    List String :=
  if !truthy svc.config || !truthy (getField svc.config "features") then
    []
  else
    match getField svc.config "features" with
    | .obj fields =>
        (jsKeys fields).filter
          (fun key => jsStrictEqTrue (getField (lookupField fields key) "enabled"))
    | _ => []

/-- `getConfig()`: `this.config || { features: {} }`. -/
def FeatureFlagService.getConfig (svc : FeatureFlagService) : JsValue :=
  jsOr svc.config (.obj [("features", .obj [])])

/-- `reload()`: simply re-runs `loadConfiguration()` against the current
state of the source — including its catch block. -/
def FeatureFlagService.reload (svc : FeatureFlagService)
    (parseResult : ParseResult) : FeatureFlagService :=
  { svc with config := loadConfiguration parseResult }

/-! ## Dynamic route loading: `getFeatureRouter` -/

/-- A handler group (an express `Router` value), identified by a tag. -/
structure HandlerGroup where
  tag : String
deriving DecidableEq

/-- What `require('./routes/<name>.js')` would find on disk:
the file is absent, the module throws while loading, or it exports a
handler group. -/
inductive RouteFile where
  | missing : RouteFile
  | raises : String → RouteFile
  | loads : HandlerGroup → RouteFile
deriving DecidableEq

/-- `getFeatureRouter(featureName)`: `null` when the flag is not enabled;
otherwise `null` when `fs.existsSync` fails or `require` throws, and the
exported router when the module loads. -/
def FeatureFlagService.getFeatureRouter (svc : FeatureFlagService)
    (files : String → RouteFile) (featureName : String) :
    Option HandlerGroup :=
  if !svc.isEnabled featureName then none
  else
    match files featureName with
    | .missing => none
    | .raises _ => none
    | .loads r => some r

/-! ## Express-like router model

Paths are segment lists (`/api/search/run` is `["api", "search", "run"]`).
`app.use(p, r)` registers a scoped mount that matches every path whose
leading segments are `p`; `app.get(p, h)` matches `p` exactly. Dispatch
takes the first registered match; an unmatched request reaches the
trailing 404 handler. -/

/-- How a registered mount matches request paths. -/
inductive MatchKind where
  | exact : MatchKind
  | scoped : MatchKind
deriving DecidableEq

/-- One entry in the router's registration order. -/
structure Mount where
  kind : MatchKind
  mountPath : List String
  handler : HandlerGroup
deriving DecidableEq

/-- `segStarts p q` holds when the segments `p` lead the path `q`. -/
def segStarts : List String → List String → Bool
  | [], _ => true
  | _ :: _, [] => false
  | a :: as, b :: bs => a == b && segStarts as bs

/-- Does this mount match the request path? -/
def mountMatches (m : Mount) (path : List String) : Bool :=
  match m.kind with
  | .exact => m.mountPath == path
  | .scoped => segStarts m.mountPath path

/-- An express application: its mounts, in registration order. -/
structure App where
  mounts : List Mount

/-- A response: either produced by a mounted handler group or by the
trailing error handlers. -/
inductive Response where
  | handled : HandlerGroup → Response
  | err : Nat → String → Response
deriving DecidableEq

/-- Dispatch a request path: the first registered mount that matches wins;
otherwise the trailing handler answers `404` with `error: 'Not Found'`. -/
def dispatch (app : App) (path : List String) : Response :=
  match app.mounts.find? (fun m => mountMatches m path) with
  | some m => .handled m.handler
  | none => .err 404 "Not Found"

/-- The mounts `server.js` registers before the feature-toggled section:
health check, flag query endpoint, flag reload endpoint, base task CRUD. -/
def coreMounts : List Mount :=
  [ { kind := .exact, mountPath := ["api", "health"],
      handler := { tag := "health" } },
    { kind := .exact, mountPath := ["api", "feature-flags"],
      handler := { tag := "feature-flags" } },
    { kind := .exact, mountPath := ["api", "feature-flags", "reload"],
      handler := { tag := "feature-flags-reload" } },
    { kind := .scoped, mountPath := ["api", "tasks"],
      handler := { tag := "tasks" } } ]

/-- The `server.js` startup pass: core routes, then the feature-toggled
section — `getFeatureRouter('advanced_search')` mounted at `/api/search`
when non-null, `getFeatureRouter('export_csv')` mounted at `/api/export`
when non-null — then the trailing 404 handler (the `dispatch` default). -/
def buildServer (svc : FeatureFlagService) (files : String → RouteFile) :
    App :=
  let afterSearch :=
    match svc.getFeatureRouter files "advanced_search" with
    | some r =>
        coreMounts ++ [{ kind := .scoped, mountPath := ["api", "search"],
                         handler := r }]
    | none => coreMounts
  let afterExport :=
    match svc.getFeatureRouter files "export_csv" with
    | some r =>
        afterSearch ++ [{ kind := .scoped, mountPath := ["api", "export"],
                          handler := r }]
    | none => afterSearch
  { mounts := afterExport }

/-- A feature-toggled capability of the mount pass: its flag name and the
fixed path it is mounted under when its flag is enabled. -/
structure Capability where
  name : String
  mountPath : List String
deriving DecidableEq

/-- The feature-toggled section of the mount pass, abstracted over the
capability list: exactly the `server.js` pattern
`const r = featureFlags.getFeatureRouter(name); if (r) app.use(path, r);`
applied to each capability in order. -/
def featureMounts (svc : FeatureFlagService) (files : String → RouteFile)
    (caps : List Capability) : List Mount :=
  caps.filterMap fun c =>
    (svc.getFeatureRouter files c.name).map fun r =>
      { kind := .scoped, mountPath := c.mountPath, handler := r }

/-- The two capabilities of the demo's mount pass. -/
def demoCaps : List Capability :=
  [ { name := "advanced_search", mountPath := ["api", "search"] },
    { name := "export_csv", mountPath := ["api", "export"] } ]

/-! ## Client mirror: `FeatureFlagManager` -/

/-- Outcome of `fetch('config/features.json')` as observed by `init()`:
a non-OK response, a thrown error (network failure, bad JSON), or an OK
response with a parsed body. -/
inductive FetchOutcome where
  | httpError : FetchOutcome
  | thrown : String → FetchOutcome
  | ok : JsValue → FetchOutcome

/-- Client mirror state: `this.features` (initialised to `{}`). -/
structure FeatureFlagManager where
  features : JsValue

/-- `init()`: on a non-OK response `this.features = {}`; in the catch
block `this.features = {}`; on success `this.features = config.features || {}`. -/
def initManager (outcome : FetchOutcome) : FeatureFlagManager :=
  match outcome with
  | .httpError => { features := .obj [] }
  | .thrown _ => { features := .obj [] }
  | .ok body => { features := jsOr (getField body "features") (.obj []) }

/-- Client `isEnabled(featureName)`: false when `this.features[featureName]`
is falsy, otherwise `enabled === true`. -/
def FeatureFlagManager.isEnabled (mgr : FeatureFlagManager)
    (featureName : String) : Bool :=
  if !truthy (getField mgr.features featureName) then false
  else jsStrictEqTrue (getField (getField mgr.features featureName) "enabled")

/-- Client `getEnabledFeatures()`:
`Object.keys(this.features).filter(key => this.features[key].enabled)` —
note the truthiness test, where the server filters on `enabled === true`. -/
def FeatureFlagManager.getEnabledFeatures (mgr : FeatureFlagManager) :
    List String :=
  match mgr.features with
  | .obj fields =>
      (jsKeys fields).filter
        (fun key => truthy (getField (lookupField fields key) "enabled"))
  | _ => []

/-- Client `getFeatureInfo(featureName)`: `this.features[featureName] || null`. -/
def FeatureFlagManager.getFeatureInfo (mgr : FeatureFlagManager)
    (featureName : String) : JsValue :=
  jsOr (getField mgr.features featureName) .null

/-- A DOM element returned by `querySelectorAll('[data-feature]')`: its
`data-feature` attribute, its `style.display`, and its class list. -/
structure DomElement where
  dataFeature : String
  display : String
  classes : List String
deriving DecidableEq

/-- `applyFeatureFlags()`: for each tagged element, show it and add
`feature-enabled` when its flag is enabled, otherwise set
`display: 'none'` and add `feature-disabled`. -/
def FeatureFlagManager.applyFeatureFlags (mgr : FeatureFlagManager)
    (elements : List DomElement) : List DomElement :=
  elements.map fun el =>
    if mgr.isEnabled el.dataFeature then
      { el with display := "", classes := el.classes ++ ["feature-enabled"] }
    else
      { el with display := "none",
                classes := el.classes ++ ["feature-disabled"] }

/-! ## Helper lemmas -/

/-- A falsy value is not an object, so property access on it yields
`undefined`. -/
theorem getField_of_truthy_false {v : JsValue} (h : truthy v = false)
    (a : String) : getField v a = .undefined := by
  cases v <;> simp_all [truthy, getField]

/-- `x === true` succeeds exactly on the boolean `true`. -/
theorem jsStrictEqTrue_eq_true_iff (v : JsValue) :
    jsStrictEqTrue v = true ↔ v = .bool true := by
  cases v with
  | bool b => cases b <;> simp [jsStrictEqTrue]
  | _ => simp [jsStrictEqTrue]

/-- A resolver state holding a well-formed manifest `{ features: fs }`. -/
def serviceOf (env : String) (fs : List (String × JsValue)) :
    FeatureFlagService :=
  { environment := env, config := .obj [("features", .obj fs)] }

/-- Over a well-formed manifest, `isEnabled` computes
`features[name].enabled === true`: the falsy-record guard never changes
the answer, because a falsy record has no `enabled` property. -/
theorem isEnabled_serviceOf (env : String) (fs : List (String × JsValue))
    (n : String) :
    (serviceOf env fs).isEnabled n
      = jsStrictEqTrue (getField (lookupField fs n) "enabled") := by
  have base : (serviceOf env fs).isEnabled n
      = if !truthy (lookupField fs n) then false
        else jsStrictEqTrue (getField (lookupField fs n) "enabled") := rfl
  rw [base]
  rcases hv : lookupField fs n with _ | _ | b | k | s | flds
  · rfl
  · rfl
  · cases b <;> rfl
  · simp [truthy, getField, jsStrictEqTrue]
  · simp [truthy, getField, jsStrictEqTrue]
  · rfl

/-- Membership in `getEnabledFeatures` over a well-formed manifest:
the name is a key and its record's `enabled` field is strictly `true`. -/
theorem mem_getEnabledFeatures_serviceOf (env : String)
    (fs : List (String × JsValue)) (n : String) :
    n ∈ (serviceOf env fs).getEnabledFeatures
      ↔ n ∈ jsKeys fs
        ∧ jsStrictEqTrue (getField (lookupField fs n) "enabled") = true := by
  show n ∈ (if !truthy (JsValue.obj [("features", .obj fs)])
          || !truthy (getField (.obj [("features", .obj fs)]) "features")
        then ([] : List String)
        else
          match getField (JsValue.obj [("features", .obj fs)]) "features" with
          | .obj fields =>
              (jsKeys fields).filter
                (fun key => jsStrictEqTrue (getField (lookupField fields key) "enabled"))
          | _ => []) ↔ _
  have hfs : getField (JsValue.obj [("features", .obj fs)]) "features"
      = .obj fs := rfl
  rw [hfs]
  simp [truthy, List.mem_filter]

/-- A name found in an association list is one of its keys. -/
theorem mem_jsKeys_of_find?_eq_some {fs : List (String × JsValue)}
    {n : String} {found : String × JsValue}
    (h : fs.find? (fun q => q.1 == n) = some found) : n ∈ jsKeys fs := by
  have hmem : found ∈ fs := List.mem_of_find?_eq_some h
  have heq := List.find?_some h
  have hname : found.1 = n := by simpa using heq
  subst hname
  exact List.mem_map_of_mem Prod.fst hmem

/-- When a name is not among the keys, lookup yields `undefined`. -/
theorem lookupField_eq_undef_of_not_mem {fs : List (String × JsValue)}
    {n : String} (h : n ∉ jsKeys fs) : lookupField fs n = .undefined := by
  unfold lookupField
  cases hf : fs.find? (fun p => p.1 == n) with
  | none => rfl
  | some p => exact absurd (mem_jsKeys_of_find?_eq_some hf) h

/-- C2: over a loaded manifest `M`, `isEnabled(n)` is `true` iff `n` is a
key of `M.features` and `M.features[n].enabled` is exactly the boolean
`true`; in every other case (name absent, `enabled` equal to `false`, or
`enabled` a non-boolean value) it returns `false`, and it is a total
function, so no error is raised. -/
theorem isEnabled_true_iff (env : String) (fs : List (String × JsValue))
    (n : String) :
    (serviceOf env fs).isEnabled n = true
      ↔ n ∈ jsKeys fs ∧ getField (lookupField fs n) "enabled" = .bool true := by
  rw [isEnabled_serviceOf, jsStrictEqTrue_eq_true_iff]
  constructor
  · intro h
    refine ⟨?_, h⟩
    by_contra hn
    rw [lookupField_eq_undef_of_not_mem hn] at h
    simp [getField] at h
  · exact fun h => h.2

/-- A document that parses but is malformed as a manifest: record `a`
carries a non-boolean `enabled` ("yes"); record `b` is well-formed. -/
def malformedManifest : JsValue :=
  .obj [("features",
    .obj [("a", .obj [("enabled", .str "yes")]),
          ("b", .obj [("enabled", .bool true)])])]

/-- C3 counterexample: a load failure of the "malformed content" kind —
the YAML parses, but a record's `enabled` is not a boolean — does NOT
yield the empty manifest: `loadConfiguration` stores the parsed document
unvalidated, so the state is not `{ features: {} }`, `isEnabled('b')` is
`true` and `getEnabledFeatures()` is `['b']`, not empty. Only a throwing
read/parse reaches the catch block that resets the state. -/
theorem initialLoad_malformed_kept_cex :
    (mkService "production" (.ok malformedManifest)).config
        ≠ .obj [("features", .obj [])]
    ∧ (mkService "production" (.ok malformedManifest)).isEnabled "b" = true
    ∧ (mkService "production" (.ok malformedManifest)).getEnabledFeatures
        = ["b"] := by
  refine ⟨fun h => ?_, rfl, rfl⟩
  simp [mkService, loadConfiguration, malformedManifest] at h

/-- C3 amended: when the initial read-and-parse of the source throws
(config file missing or unreadable, YAML parse error), the constructor's
load does not propagate the error: the state becomes the empty manifest
`{ features: {} }`, `getEnabledFeatures()` is empty, and `isEnabled(n)`
is `false` for every name `n`. (Content that parses but is malformed is
kept as loaded, not replaced — see the counterexample above; a malformed
record still resolves to disabled, but well-formed records beside it
keep working.) -/
theorem initialLoad_failSafeClosed (env err : String) :
    loadConfiguration (.error err) = .obj [("features", .obj [])]
    ∧ (mkService env (.error err)).getEnabledFeatures = []
    ∧ ∀ n, (mkService env (.error err)).isEnabled n = false :=
  ⟨rfl, rfl, fun _ => rfl⟩

/-- C1 counterexample: a state whose source previously parsed successfully
(`export` enabled) is NOT left unchanged by a failed `reload()` — the
catch block of `loadConfiguration` replaces it with the empty manifest,
so `isEnabled('export')` flips from `true` to `false`. -/
theorem reload_failure_replaces_state_cex :
    (serviceOf "production"
        [("export", .obj [("enabled", .bool true)])]).isEnabled "export" = true
    ∧ ((serviceOf "production"
        [("export", .obj [("enabled", .bool true)])]).reload
        (.error "yaml parse error")).isEnabled "export" = false :=
  ⟨rfl, rfl⟩

/-- C1 amended: a failed `reload()` does not preserve the previous
Resolver State; it replaces it with the empty manifest `{ features: {} }`
(the same fail-safe-closed policy as the initial load), so after a failed
reload every flag resolves to disabled. -/
theorem reload_failure_resets_to_empty (svc : FeatureFlagService)
    (err : String) :
    (svc.reload (.error err)).config = .obj [("features", .obj [])]
    ∧ (svc.reload (.error err)).getEnabledFeatures = []
    ∧ ∀ n, (svc.reload (.error err)).isEnabled n = false :=
  ⟨rfl, rfl, fun _ => rfl⟩

/-- C9: two manifests that agree on the key set and on every record's
`enabled` field — however much their `description`, `owner` and `status`
metadata differ — give the same `isEnabled` answer for every name and the
same `getEnabledFeatures` set: only `enabled` gates. -/
theorem metadata_never_gates (env : String)
    (fs gs : List (String × JsValue))
    (hkeys : ∀ n, n ∈ jsKeys fs ↔ n ∈ jsKeys gs)
    (hen : ∀ n, getField (lookupField fs n) "enabled"
      = getField (lookupField gs n) "enabled") :
    (∀ n, (serviceOf env fs).isEnabled n = (serviceOf env gs).isEnabled n)
    ∧ (∀ n, n ∈ (serviceOf env fs).getEnabledFeatures
        ↔ n ∈ (serviceOf env gs).getEnabledFeatures) := by
  constructor
  · intro n
    rw [isEnabled_serviceOf, isEnabled_serviceOf, hen n]
  · intro n
    rw [mem_getEnabledFeatures_serviceOf, mem_getEnabledFeatures_serviceOf,
      hkeys n, hen n]

/-- A record with `enabled: true` and some metadata. -/
def recordWith (desc owner status : String) : JsValue :=
  .obj [("enabled", .bool true), ("description", .str desc),
        ("owner", .str owner), ("status", .str status)]

/-- Witness for C9 at concrete manifests that differ only in metadata. -/
theorem metadata_never_gates_witness :
    ((serviceOf "production" [("a", recordWith "old" "dev1" "in_development")]).isEnabled "a"
      = (serviceOf "production" [("a", recordWith "new" "dev2" "live")]).isEnabled "a")
    ∧ ("a" ∈ (serviceOf "production" [("a", recordWith "old" "dev1" "in_development")]).getEnabledFeatures
        ↔ "a" ∈ (serviceOf "production" [("a", recordWith "new" "dev2" "live")]).getEnabledFeatures) := by
  have h := metadata_never_gates "production"
    [("a", recordWith "old" "dev1" "in_development")]
    [("a", recordWith "new" "dev2" "live")]
    (fun n => Iff.rfl)
    (fun n => by
      simp only [lookupField, List.find?]
      cases h : ("a" == n) <;> rfl)
  exact ⟨h.1 "a", h.2 "a"⟩

/-- Over a feature map held by the client mirror, `isEnabled` computes
`features[name].enabled === true`, exactly like the server. -/
theorem clientIsEnabled_eq (fs : List (String × JsValue)) (n : String) :
    FeatureFlagManager.isEnabled { features := .obj fs } n
      = jsStrictEqTrue (getField (lookupField fs n) "enabled") := by
  have base : FeatureFlagManager.isEnabled { features := .obj fs } n
      = if !truthy (lookupField fs n) then false
        else jsStrictEqTrue (getField (lookupField fs n) "enabled") := rfl
  rw [base]
  rcases hv : lookupField fs n with _ | _ | b | k | s | flds
  · rfl
  · rfl
  · cases b <;> rfl
  · simp [truthy, getField, jsStrictEqTrue]
  · simp [truthy, getField, jsStrictEqTrue]
  · rfl

/-- Does this record's `enabled` field hold a boolean (or no `enabled`
field at all)? -/
def enabledIsBooleanOrAbsent (record : JsValue) : Bool :=
  match getField record "enabled" with
  | .bool _ => true
  | .undefined => true
  | _ => false

/-- On a boolean-or-absent `enabled` field, JS truthiness and strict
equality with `true` agree. -/
theorem truthy_eq_strict_of_boolish {record : JsValue}
    (h : enabledIsBooleanOrAbsent record = true) :
    truthy (getField record "enabled")
      = jsStrictEqTrue (getField record "enabled") := by
  unfold enabledIsBooleanOrAbsent at h
  rcases hv : getField record "enabled" with _ | _ | b | k | s | flds
    <;> rw [hv] at h <;> first
      | (cases b <;> rfl)
      | rfl
      | exact absurd h (by simp)

/-- A key of an association list is found by `find?`. -/
theorem find?_eq_some_of_mem_jsKeys {fs : List (String × JsValue)}
    {k : String} (hk : k ∈ jsKeys fs) :
    ∃ found ∈ fs, fs.find? (fun q => q.1 == k) = some found := by
  obtain ⟨q, hq, hq1⟩ := List.mem_map.mp hk
  have hsome : (fs.find? (fun q => q.1 == k)).isSome := by
    rw [List.find?_isSome]
    exact ⟨q, hq, by simp [hq1]⟩
  obtain ⟨found, hfound⟩ := Option.isSome_iff_exists.mp hsome
  exact ⟨found, List.mem_of_find?_eq_some hfound, hfound⟩

/-- C6 counterexample: on the feature map `{a: {enabled: 1}}` — `enabled`
truthy but not the boolean `true` — the Client Mirror's
`getEnabledFeatures` reports `["a"]` while the server's reports `[]`:
`"a"` is in the client's set and not in the server's. -/
theorem client_server_enabledNames_differ_cex :
    FeatureFlagManager.getEnabledFeatures
        { features := .obj [("a", .obj [("enabled", .num 1)])] } = ["a"]
    ∧ (serviceOf "production"
        [("a", .obj [("enabled", .num 1)])]).getEnabledFeatures = [] :=
  ⟨rfl, rfl⟩

/-- C6 amended: over any shared feature map, the Client Mirror's
`isEnabled` and `getFeatureInfo` return exactly the server resolver's
answers; `getEnabledFeatures` agrees whenever every record's `enabled`
field is a boolean (or absent) — in general the client admits any truthy
`enabled` where the server requires `enabled === true`. -/
theorem client_mirror_refines (fs : List (String × JsValue)) (env : String) :
    (∀ n, FeatureFlagManager.isEnabled { features := .obj fs } n
      = (serviceOf env fs).isEnabled n)
    ∧ (∀ n, FeatureFlagManager.getFeatureInfo { features := .obj fs } n
      = (serviceOf env fs).getFeatureInfo n)
    ∧ (fs.all (fun q => enabledIsBooleanOrAbsent q.2) = true →
        FeatureFlagManager.getEnabledFeatures { features := .obj fs }
          = (serviceOf env fs).getEnabledFeatures) := by
  refine ⟨fun n => ?_, fun n => rfl, fun hbool => ?_⟩
  · rw [clientIsEnabled_eq, isEnabled_serviceOf]
  · have hclient : FeatureFlagManager.getEnabledFeatures { features := .obj fs }
        = (jsKeys fs).filter
            (fun key => truthy (getField (lookupField fs key) "enabled")) := rfl
    have hserver : (serviceOf env fs).getEnabledFeatures
        = (jsKeys fs).filter
            (fun key => jsStrictEqTrue (getField (lookupField fs key) "enabled")) := rfl
    rw [hclient, hserver]
    apply List.filter_congr
    intro k hk
    obtain ⟨found, hfound, hfind⟩ := find?_eq_some_of_mem_jsKeys hk
    have hlook : lookupField fs k = found.2 := by
      unfold lookupField
      rw [hfind]
    rw [hlook]
    exact truthy_eq_strict_of_boolish (List.all_eq_true.mp hbool found hfound)

/-- Witness for C6's amended statement at `{export: {enabled: true}}`. -/
theorem client_mirror_refines_witness :
    FeatureFlagManager.isEnabled
        { features := .obj [("export", .obj [("enabled", .bool true)])] } "export"
      = (serviceOf "production"
          [("export", .obj [("enabled", .bool true)])]).isEnabled "export"
    ∧ FeatureFlagManager.getEnabledFeatures
        { features := .obj [("export", .obj [("enabled", .bool true)])] }
      = (serviceOf "production"
          [("export", .obj [("enabled", .bool true)])]).getEnabledFeatures :=
  ⟨(client_mirror_refines [("export", .obj [("enabled", .bool true)])]
      "production").1 "export",
    (client_mirror_refines [("export", .obj [("enabled", .bool true)])]
      "production").2.2 rfl⟩

/-- C7: when the Client Mirror's fetch fails — non-OK response or thrown
error — `init` falls back to the empty feature map, `isEnabled` returns
`false` for every name (it is total, so it never throws), and the
declarative sweep sets `display: 'none'` (and the `feature-disabled`
class) on every element carrying a `data-feature` attribute. -/
theorem client_fetch_failure_failSafe (outcome : FetchOutcome)
    (hfail : outcome = .httpError ∨ ∃ msg, outcome = .thrown msg) :
    (∀ n, (initManager outcome).isEnabled n = false)
    ∧ ∀ elements, ∀ el ∈ (initManager outcome).applyFeatureFlags elements,
        el.display = "none" ∧ "feature-disabled" ∈ el.classes := by
  have hfeat : (initManager outcome).features = .obj [] := by
    rcases hfail with h | ⟨msg, h⟩ <;> subst h <;> rfl
  have hne : ∀ n, (initManager outcome).isEnabled n = false := by
    intro n
    unfold FeatureFlagManager.isEnabled
    rw [hfeat]
    rfl
  refine ⟨hne, fun elements el hel => ?_⟩
  unfold FeatureFlagManager.applyFeatureFlags at hel
  obtain ⟨el0, hel0, heq⟩ := List.mem_map.mp hel
  rw [hne el0.dataFeature] at heq
  simp only [Bool.false_eq_true, if_false] at heq
  subst heq
  exact ⟨rfl, by simp⟩

/-- Witness for C7 at a non-OK fetch and one tagged element. -/
theorem client_fetch_failure_failSafe_witness :
    (initManager .httpError).isEnabled "search" = false
    ∧ (initManager .httpError).isEnabled "export" = false
    ∧ (initManager .httpError).applyFeatureFlags
        [{ dataFeature := "export", display := "block", classes := [] }]
      = [{ dataFeature := "export", display := "none",
           classes := ["feature-disabled"] }] :=
  ⟨(client_fetch_failure_failSafe .httpError (Or.inl rfl)).1 "search",
    (client_fetch_failure_failSafe .httpError (Or.inl rfl)).1 "export",
    rfl⟩

/-- C10: when a feature's flag is enabled but its route module is missing
from disk or throws while loading, `getFeatureRouter` returns `null`
instead of raising — the capability is silently left unmounted. -/
theorem getFeatureRouter_null_on_load_failure (svc : FeatureFlagService)
    (files : String → RouteFile) (n : String)
    (hen : svc.isEnabled n = true)
    (hfile : files n = .missing ∨ ∃ msg, files n = .raises msg) :
    svc.getFeatureRouter files n = none := by
  unfold FeatureFlagService.getFeatureRouter
  rcases hfile with h | ⟨msg, h⟩ <;> simp [hen, h]

/-- Witness for C10: `export` enabled, its route file absent. -/
theorem getFeatureRouter_null_on_load_failure_witness :
    (serviceOf "production"
        [("export", .obj [("enabled", .bool true)])]).getFeatureRouter
      (fun _ => .missing) "export" = none :=
  getFeatureRouter_null_on_load_failure _ _ _ rfl (Or.inl rfl)

/-! ## Mount pass lemmas -/

/-- A scoped mount matches every path it leads. -/
theorem segStarts_append (p rest : List String) :
    segStarts p (p ++ rest) = true := by
  induction p with
  | nil => rfl
  | cons a as ih => simp [segStarts, ih]

/-- A disabled flag yields no router. -/
theorem getFeatureRouter_none_of_disabled {svc : FeatureFlagService}
    (files : String → RouteFile) {n : String}
    (h : svc.isEnabled n = false) : svc.getFeatureRouter files n = none := by
  unfold FeatureFlagService.getFeatureRouter
  simp [h]

/-- An enabled flag whose module loads yields its router. -/
theorem getFeatureRouter_some_of_loads {svc : FeatureFlagService}
    {files : String → RouteFile} {n : String} {r : HandlerGroup}
    (hen : svc.isEnabled n = true) (hf : files n = .loads r) :
    svc.getFeatureRouter files n = some r := by
  unfold FeatureFlagService.getFeatureRouter
  simp [hen, hf]

/-- The registration order `buildServer` produces, as a function of the
two `getFeatureRouter` results. -/
theorem buildServer_eq (svc : FeatureFlagService)
    (files : String → RouteFile) :
    buildServer svc files
      = { mounts := coreMounts
          ++ (match svc.getFeatureRouter files "advanced_search" with
              | some r => [{ kind := .scoped, mountPath := ["api", "search"],
                             handler := r }]
              | none => [])
          ++ (match svc.getFeatureRouter files "export_csv" with
              | some r => [{ kind := .scoped, mountPath := ["api", "export"],
                             handler := r }]
              | none => []) } := by
  unfold buildServer
  cases svc.getFeatureRouter files "advanced_search" <;>
    cases svc.getFeatureRouter files "export_csv" <;> simp

/-- C4: for each capability of the mount pass, a disabled (or absent)
flag leaves zero mounts at its path and sends every request under that
path to the default handler — status `404`, `'Not Found'` (not `403`
`'Forbidden'`) — while an enabled flag whose module loads makes its
handler group reachable at its fixed path for every request under it. -/
theorem capability_gating (svc : FeatureFlagService)
    (files : String → RouteFile) (c : Capability) (hc : c ∈ demoCaps)
    (rest : List String) :
    (svc.isEnabled c.name = false →
      (∀ m ∈ (buildServer svc files).mounts, m.mountPath ≠ c.mountPath)
      ∧ dispatch (buildServer svc files) (c.mountPath ++ rest)
          = .err 404 "Not Found")
    ∧ ∀ r, svc.isEnabled c.name = true → files c.name = .loads r →
        dispatch (buildServer svc files) (c.mountPath ++ rest)
          = .handled r := by
  have hdemo : c = { name := "advanced_search",
                     mountPath := ["api", "search"] }
      ∨ c = { name := "export_csv", mountPath := ["api", "export"] } := by
    simpa [demoCaps] using hc
  have happ := buildServer_eq svc files
  rcases hdemo with rfl | rfl
  · constructor
    · intro hdis
      rw [getFeatureRouter_none_of_disabled files hdis] at happ
      cases hexp : svc.getFeatureRouter files "export_csv" <;>
        rw [hexp] at happ <;> rw [happ] <;>
        constructor <;>
        simp [dispatch, coreMounts, List.find?, mountMatches, segStarts,
          List.forall_mem_append, List.forall_mem_cons]
    · intro r hen hf
      rw [getFeatureRouter_some_of_loads hen hf] at happ
      cases hexp : svc.getFeatureRouter files "export_csv" <;>
        rw [hexp] at happ <;> rw [happ] <;>
        simp [dispatch, coreMounts, List.find?, mountMatches, segStarts,
          segStarts_append]
  · constructor
    · intro hdis
      rw [getFeatureRouter_none_of_disabled files hdis] at happ
      cases hsearch : svc.getFeatureRouter files "advanced_search" <;>
        rw [hsearch] at happ <;> rw [happ] <;>
        constructor <;>
        simp [dispatch, coreMounts, List.find?, mountMatches, segStarts,
          List.forall_mem_append, List.forall_mem_cons]
    · intro r hen hf
      rw [getFeatureRouter_some_of_loads hen hf] at happ
      cases hsearch : svc.getFeatureRouter files "advanced_search" <;>
        rw [hsearch] at happ <;> rw [happ] <;>
        simp [dispatch, coreMounts, List.find?, mountMatches, segStarts,
          segStarts_append]

/-- Witness for C4: `search` disabled is met with 404 `'Not Found'`,
`export` enabled is routed to its handler group. -/
theorem capability_gating_witness :
    dispatch
        (buildServer
          (serviceOf "production"
            [("advanced_search", .obj [("enabled", .bool false)]),
             ("export_csv", .obj [("enabled", .bool true)])])
          (fun n => .loads { tag := n }))
        (["api", "search"] ++ ["tasks"]) = .err 404 "Not Found"
    ∧ dispatch
        (buildServer
          (serviceOf "production"
            [("advanced_search", .obj [("enabled", .bool false)]),
             ("export_csv", .obj [("enabled", .bool true)])])
          (fun n => .loads { tag := n }))
        (["api", "export"] ++ ["csv"])
      = .handled { tag := "export_csv" } :=
  ⟨((capability_gating
      (serviceOf "production"
        [("advanced_search", .obj [("enabled", .bool false)]),
         ("export_csv", .obj [("enabled", .bool true)])])
      (fun n => .loads { tag := n })
      { name := "advanced_search", mountPath := ["api", "search"] }
      (by decide) ["tasks"]).1 rfl).2,
    (capability_gating
      (serviceOf "production"
        [("advanced_search", .obj [("enabled", .bool false)]),
         ("export_csv", .obj [("enabled", .bool true)])])
      (fun n => .loads { tag := n })
      { name := "export_csv", mountPath := ["api", "export"] }
      (by decide) ["csv"]).2 { tag := "export_csv" } rfl rfl⟩

/-- Under a successfully-loading module directory, the feature-toggled
section binds exactly the mount paths of the enabled capabilities, in
capability order. -/
theorem featureMounts_paths (svc : FeatureFlagService)
    (files : String → RouteFile) (caps : List Capability)
    (hfiles : ∀ c ∈ caps, ∃ r, files c.name = .loads r) :
    (featureMounts svc files caps).map Mount.mountPath
      = (caps.filter (fun c => svc.isEnabled c.name)).map
          Capability.mountPath := by
  induction caps with
  | nil => rfl
  | cons c cs ih =>
      obtain ⟨r, hr⟩ := hfiles c (List.mem_cons_self c cs)
      have hrest : ∀ c ∈ cs, ∃ r, files c.name = .loads r :=
        fun c hc => hfiles c (List.mem_cons_of_mem _ hc)
      cases hen : svc.isEnabled c.name with
      | false =>
          rw [featureMounts, List.filterMap_cons,
            getFeatureRouter_none_of_disabled files hen]
          simpa [featureMounts, hen] using ih hrest
      | true =>
          rw [featureMounts, List.filterMap_cons,
            getFeatureRouter_some_of_loads hen hr]
          simpa [featureMounts, hen] using ih hrest

/-- C8: over any manifest, the mount pass is order-independent — for any
permutation of the capability invocation order the bound mount paths are
a permutation (the same set) — and each side binds exactly the paths of
the capabilities whose own flag is enabled, so no capability's gating
decision depends on any other capability's flag state. -/
theorem mount_order_independent (svc : FeatureFlagService)
    (files : String → RouteFile) (caps₁ caps₂ : List Capability)
    (hperm : caps₁.Perm caps₂)
    (hfiles : ∀ c ∈ caps₁, ∃ r, files c.name = .loads r) :
    (featureMounts svc files caps₁).map Mount.mountPath
      = (caps₁.filter (fun c => svc.isEnabled c.name)).map
          Capability.mountPath
    ∧ (featureMounts svc files caps₂).map Mount.mountPath
      = (caps₂.filter (fun c => svc.isEnabled c.name)).map
          Capability.mountPath
    ∧ ((featureMounts svc files caps₁).map Mount.mountPath).Perm
        ((featureMounts svc files caps₂).map Mount.mountPath) := by
  have hfiles₂ : ∀ c ∈ caps₂, ∃ r, files c.name = .loads r :=
    fun c hc => hfiles c (hperm.mem_iff.mpr hc)
  have h₁ := featureMounts_paths svc files caps₁ hfiles
  have h₂ := featureMounts_paths svc files caps₂ hfiles₂
  refine ⟨h₁, h₂, ?_⟩
  rw [h₁, h₂]
  exact ((hperm.filter _).map _)

/-- Witness for C8: `{a enabled, b disabled, c enabled}` mounted in two
different invocation orders binds the same path set `{a, c}`. -/
theorem mount_order_independent_witness :
    ((featureMounts
        (serviceOf "production"
          [("a", .obj [("enabled", .bool true)]),
           ("b", .obj [("enabled", .bool false)]),
           ("c", .obj [("enabled", .bool true)])])
        (fun n => .loads { tag := n })
        [{ name := "a", mountPath := ["api", "a"] },
         { name := "b", mountPath := ["api", "b"] },
         { name := "c", mountPath := ["api", "c"] }]).map Mount.mountPath).Perm
      ((featureMounts
        (serviceOf "production"
          [("a", .obj [("enabled", .bool true)]),
           ("b", .obj [("enabled", .bool false)]),
           ("c", .obj [("enabled", .bool true)])])
        (fun n => .loads { tag := n })
        [{ name := "c", mountPath := ["api", "c"] },
         { name := "b", mountPath := ["api", "b"] },
         { name := "a", mountPath := ["api", "a"] }]).map Mount.mountPath) :=
  (mount_order_independent
    (serviceOf "production"
      [("a", .obj [("enabled", .bool true)]),
       ("b", .obj [("enabled", .bool false)]),
       ("c", .obj [("enabled", .bool true)])])
    (fun n => .loads { tag := n })
    [{ name := "a", mountPath := ["api", "a"] },
     { name := "b", mountPath := ["api", "b"] },
     { name := "c", mountPath := ["api", "c"] }]
    [{ name := "c", mountPath := ["api", "c"] },
     { name := "b", mountPath := ["api", "b"] },
     { name := "a", mountPath := ["api", "a"] }]
    (by decide)
    (fun c _ => ⟨{ tag := c.name }, rfl⟩)).2.2

/-- C5 counterexample: two enabled capabilities given the same mount path
in one pass do NOT make the pass fail at mount time — it completes,
binds both, and a request under the shared path is resolved by
registration-order precedence: the first capability's handler answers
and the second is silently shadowed. -/
theorem duplicate_mountPath_not_fatal_cex :
    featureMounts
        (serviceOf "production"
          [("alpha", .obj [("enabled", .bool true)]),
           ("beta", .obj [("enabled", .bool true)])])
        (fun n => .loads { tag := n })
        [{ name := "alpha", mountPath := ["api", "x"] },
         { name := "beta", mountPath := ["api", "x"] }]
      = [{ kind := .scoped, mountPath := ["api", "x"],
           handler := { tag := "alpha" } },
         { kind := .scoped, mountPath := ["api", "x"],
           handler := { tag := "beta" } }]
    ∧ dispatch
        { mounts := featureMounts
            (serviceOf "production"
              [("alpha", .obj [("enabled", .bool true)]),
               ("beta", .obj [("enabled", .bool true)])])
            (fun n => .loads { tag := n })
            [{ name := "alpha", mountPath := ["api", "x"] },
             { name := "beta", mountPath := ["api", "x"] }] }
        ["api", "x", "run"]
      = .handled { tag := "alpha" } :=
  ⟨rfl, rfl⟩

/-- C5 amended: the mount pass performs no duplicate-path detection and
never refuses to proceed: when two enabled, loadable capabilities share
one mount path, both are bound and every request under that path is
answered by the first-mounted capability's handler — the collision is
resolved by registration-order precedence, shadowing the second. (The
demo's own mount pass gives its two capabilities distinct fixed paths,
so no overlap arises there.) -/
theorem duplicate_mountPath_precedence (svc : FeatureFlagService)
    (files : String → RouteFile) (c₁ c₂ : Capability)
    (r₁ r₂ : HandlerGroup) (rest : List String)
    (hpath : c₂.mountPath = c₁.mountPath)
    (h₁ : svc.isEnabled c₁.name = true) (hf₁ : files c₁.name = .loads r₁)
    (h₂ : svc.isEnabled c₂.name = true) (hf₂ : files c₂.name = .loads r₂) :
    featureMounts svc files [c₁, c₂]
      = [{ kind := .scoped, mountPath := c₁.mountPath, handler := r₁ },
         { kind := .scoped, mountPath := c₁.mountPath, handler := r₂ }]
    ∧ dispatch { mounts := featureMounts svc files [c₁, c₂] }
        (c₁.mountPath ++ rest) = .handled r₁
    ∧ demoCaps.Pairwise (fun a b => a.mountPath ≠ b.mountPath) := by
  have hmounts : featureMounts svc files [c₁, c₂]
      = [{ kind := .scoped, mountPath := c₁.mountPath, handler := r₁ },
         { kind := .scoped, mountPath := c₁.mountPath, handler := r₂ }] := by
    simp [featureMounts, getFeatureRouter_some_of_loads h₁ hf₁,
      getFeatureRouter_some_of_loads h₂ hf₂, hpath]
  refine ⟨hmounts, ?_, by decide⟩
  rw [hmounts]
  have hmatch : mountMatches
      { kind := .scoped, mountPath := c₁.mountPath, handler := r₁ }
      (c₁.mountPath ++ rest) = true := by
    simp [mountMatches, segStarts_append]
  simp [dispatch, List.find?, hmatch]

/-- Witness for C5's amended statement: both capabilities enabled at the
shared path `/api/x`; the first mounted (`alpha`) answers. -/
theorem duplicate_mountPath_precedence_witness :
    dispatch
        { mounts := featureMounts
            (serviceOf "production"
              [("alpha", .obj [("enabled", .bool true)]),
               ("beta", .obj [("enabled", .bool true)])])
            (fun n => .loads { tag := n })
            [{ name := "alpha", mountPath := ["api", "x"] },
             { name := "beta", mountPath := ["api", "x"] }] }
        (["api", "x"] ++ ["run"])
      = .handled { tag := "alpha" } :=
  (duplicate_mountPath_precedence
    (serviceOf "production"
      [("alpha", .obj [("enabled", .bool true)]),
       ("beta", .obj [("enabled", .bool true)])])
    (fun n => .loads { tag := n })
    { name := "alpha", mountPath := ["api", "x"] }
    { name := "beta", mountPath := ["api", "x"] }
    { tag := "alpha" } { tag := "beta" } ["run"]
    rfl rfl rfl rfl rfl).2.1

end FeatureFlags
